import Mathlib

/-!
Verification of the graphqlgin repository: a GraphQL handler for the Gin web
framework.  The development shallowly embeds the Go source (handler + upload
assembler) as executable Lean definitions and proves or refutes the frozen
claims about it.

Conventions of the embedding:
* Go `interface{}` JSON trees become the inductive `Value`; a Go `nil`
  interface value (and the zero value of a `map[string]interface{}` field) is
  `Value.vnull`; a `*multipart.FileHeader` is an opaque handle `Value.vfile h`
  (distinct parts have distinct handles, mirroring pointer identity).
* Go maps are modelled as association lists with insert-or-overwrite
  semantics; Go iterates maps in unspecified order, the model iterates in
  list order (noted wherever a claim could be order-sensitive).
* A Go runtime panic (failed type assertion, slice index out of range,
  assignment into a nil map reached through a `nil` child) is a distinct
  outcome constructor, never an error return.
* Fallible external library calls (JSON unmarshalling by `encoding/json`,
  request binding by `c.ShouldBind`) are inputs to the handler model as
  `Except String _` values carrying the error text; their internals are out
  of scope of the repository.
-/

namespace Graphqlgin

/-- A JSON-ish dynamic value: the Go `interface{}` trees the handler
manipulates.  `vfile` is an injected `*multipart.FileHeader` handle. -/
inductive Value where
  | vnull
  | vbool (b : Bool)
  | vint (n : Int)
  | vstr (s : String)
  | vfile (h : Nat)
  | vobj (fields : List (String × Value))
  | varr (elems : List Value)

/-- A parsed path segment: the elements of the `parts` slice built by `set`.
A segment is either a field name (Go `string`) or an index (Go `int`). -/
inductive Seg where
  | name (s : String)
  | idx (n : Int)
deriving DecidableEq

/-- Models Go `strings.Split(path, ".")`: cut at every dot, keeping empty
tokens, with the empty string yielding one empty token. -/
def splitDotChars : List Char → List (List Char)
  | [] => [[]]
  | c :: rest =>
      if c = '.' then [] :: splitDotChars rest
      else
        match splitDotChars rest with
        | [] => [[c]]
        | h :: t => (c :: h) :: t

/-- String-level wrapper for `splitDotChars`. -/
def splitDot (s : String) : List String :=
  (splitDotChars s.data).map (fun cs => String.mk cs)

/-- Models `regexp.MatchString("\\d+", p)`: the pattern is unanchored, so it
matches exactly when the token contains at least one decimal digit anywhere.
(The regexp-compile error branch in the source is unreachable for this
constant, valid pattern.) -/
def containsDigit (p : String) : Bool :=
  p.data.any (fun c => c.isDigit)

/-- Numeric value of a list of decimal digits. -/
def digitsToNat : List Char → Nat
  | [] => 0
  | c :: rest => digitsToNatAux (c :: rest) 0
where
  digitsToNatAux : List Char → Nat → Nat
    | [], acc => acc
    | c :: rest, acc => digitsToNatAux rest (acc * 10 + (c.toNat - '0'.toNat))

/-- Models `index, _ := strconv.Atoi(p)` with the error discarded: an optional
sign followed by one or more digits parses to its value, anything else leaves
the zero value `0`.  (Atoi's clamping of out-of-64-bit-range inputs is not
modelled; no claim depends on it.) -/
def goAtoi (s : String) : Int :=
  match s.data with
  | '-' :: rest =>
      if rest ≠ [] ∧ rest.all Char.isDigit then -(Int.ofNat (digitsToNat rest)) else 0
  | '+' :: rest =>
      if rest ≠ [] ∧ rest.all Char.isDigit then Int.ofNat (digitsToNat rest) else 0
  | l => if l ≠ [] ∧ l.all Char.isDigit then Int.ofNat (digitsToNat l) else 0

/-- Classification of one path token, as in the loop at the top of `set`:
any token containing a digit goes through `strconv.Atoi` (error ignored) and
becomes an index segment; all other tokens are field-name segments. -/
def parseSeg (p : String) : Seg :=
  if containsDigit p then Seg.idx (goAtoi p) else Seg.name p

/-- The `parts` slice that `set` builds from the raw path string. -/
def parseParts (path : String) : List Seg :=
  (splitDot path).map parseSeg

/-- Tokens classified as index segments by the spec text: a token matching
the anchored pattern `[0-9]+$` from the start, i.e. entirely decimal digits.
Modelled from the spec wording for comparison with `containsDigit`. -/
def specIsIndexToken (p : String) : Bool :=
  p.data ≠ [] && p.data.all Char.isDigit

/-- Go map read `m[k]`: a missing key yields the zero value, i.e. `nil`. -/
def mapGet (fields : List (String × Value)) (k : String) : Value :=
  match fields with
  | [] => Value.vnull
  | (k2, v2) :: rest => if k2 = k then v2 else mapGet rest k

/-- Go map write `m[k] = v`: overwrite an existing key or add a new one. -/
def mapSet (fields : List (String × Value)) (k : String) (v : Value) :
    List (String × Value) :=
  match fields with
  | [] => [(k, v)]
  | (k2, v2) :: rest =>
      if k2 = k then (k, v) :: rest else (k2, v2) :: mapSet rest k v

/-- Go slice read `m[i]`: `none` models the index-out-of-range panic
(including a negative index). -/
def listGet (elems : List Value) (i : Int) : Option Value :=
  if 0 ≤ i then elems.get? i.toNat else none

/-- Go slice write `m[i] = v`: `none` models the index-out-of-range panic. -/
def listSet (elems : List Value) (i : Int) (v : Value) : Option (List Value) :=
  if 0 ≤ i ∧ i.toNat < elems.length then some (elems.set i.toNat v) else none

/-- The navigation loop of `set` (`for i, p := range parts[1:]`), rewritten as
structural recursion over the remaining segments.  `none` models a Go runtime
panic: an unchecked type assertion `m.(map[string]interface{})` /
`m.([]interface{})` applied to a value of another shape, or a slice index out
of range.  A missing object key yields the `nil` child (`mapGet`), so a
non-final missing key panics one step later, as in Go.  On success the
updated root is returned (Go mutates the shared containers in place; the
JSON-decoded trees are alias-free, so the functional rebuild is
observationally identical). -/
def navSet (v : Value) (m : Value) : List Seg → Option Value
  | [] => some m
  | [Seg.name k] =>
      match m with
      | Value.vobj fields => some (Value.vobj (mapSet fields k v))
      | _ => none
  | [Seg.idx i] =>
      match m with
      | Value.varr elems =>
          match listSet elems i v with
          | some elems2 => some (Value.varr elems2)
          | none => none
      | _ => none
  | Seg.name k :: rest =>
      match m with
      | Value.vobj fields =>
          match navSet v (mapGet fields k) rest with
          | some child => some (Value.vobj (mapSet fields k child))
          | none => none
      | _ => none
  | Seg.idx i :: rest =>
      match m with
      | Value.varr elems =>
          match listGet elems i with
          | some child =>
              match navSet v child rest with
              | some child2 =>
                  match listSet elems i child2 with
                  | some elems2 => some (Value.varr elems2)
                  | none => none
              | none => none
          | none => none
      | _ => none

/-- The two `fmt.Errorf` failures `set` can return. -/
inductive SetErr where
  | emptyPath
  | firstNotVariables
deriving DecidableEq

/-- The error strings produced by `fmt.Errorf` in `set`. -/
def SetErr.msg : SetErr → String
  | SetErr.emptyPath => "empty path found"
  | SetErr.firstNotVariables => "first part of path is supposed to be variables"

/-- Outcome of one call to `set`: a normal return with the (possibly updated)
root, an error return, or a runtime panic. -/
inductive SetOutcome where
  | ok (root : Value)
  | err (e : SetErr)
  | panic

/-- `parts[0] != "variables"`: the first element compares equal to the
string `"variables"` only when it is that very string (an `int` segment is a
different dynamic type and always compares unequal). -/
def firstIsVariables : List Seg → Bool
  | Seg.name s :: _ => s = "variables"
  | _ => false

/-- The function `set(v, m, path)` of the source: parse the path into
segments, reject an empty segment list (unreachable: splitting always yields
at least one token) and a first token other than `"variables"`, then run the
navigation loop over the remaining segments.  The source checks
`len(parts) >= 1 && parts[0] != "variables"`; the length guard is implied
here by the preceding empty check. -/
def set (v m : Value) (path : String) : SetOutcome :=
  if (parseParts path).isEmpty then SetOutcome.err SetErr.emptyPath
  else if firstIsVariables (parseParts path) then
    match navSet v m (parseParts path).tail with
    | some r => SetOutcome.ok r
    | none => SetOutcome.panic
  else SetOutcome.err SetErr.firstNotVariables

/-- A value stored in a `context.Context` entry: either the `*gin.Context`
handle of the current request (an opaque `Nat` identity) or a value of any
other dynamic type. -/
inductive CtxVal where
  | ginCtx (h : Nat)
  | other (payload : String)
deriving DecidableEq

/-- A `context.Context` as the chain of `context.WithValue` wrappers over
`context.Background()`: newest entry first, lookup returns the newest match. -/
abbrev GoContext : Type := List (String × CtxVal)

/-- `context.WithValue(ctx, k, v)`. -/
def withValue (ctx : GoContext) (k : String) (v : CtxVal) : GoContext :=
  (k, v) :: ctx

/-- `ctx.Value(k)`: first match in the chain, `none` when the key is absent. -/
def ctxValue : GoContext → String → Option CtxVal
  | [], _ => none
  | (k2, v) :: rest, k => if k2 = k then some v else ctxValue rest k

/-- The constant `GinContextKey`. -/
def GinContextKey : String := "GinContext"

/-- A context provider `func(c *gin.Context, ctx context.Context) context.Context`,
with the `*gin.Context` as an opaque handle. -/
abbrev ContextProviderFn : Type := Nat → GoContext → GoContext

/-- `GinContextProvider`: stores the current request handle under
`GinContextKey`. -/
def GinContextProvider : ContextProviderFn :=
  fun c ctx => withValue ctx GinContextKey (CtxVal.ginCtx c)

/-- `GetGinContext`: the comma-ok type assertion
`ginContext, _ := ctx.Value(GinContextKey).(*gin.Context)` — the handle when
the reserved key holds one, otherwise the zero value (`none` models the nil
pointer), both for an absent key and for a value of another type. -/
def GetGinContext (ctx : GoContext) : Option Nat :=
  match ctxValue ctx GinContextKey with
  | some (CtxVal.ginCtx h) => some h
  | _ => none

/-- The `GraphQLApp` structure, restricted to the provider list (the schema
is opaque plumbing shared by every branch and does not affect any claim). -/
structure GraphQLApp where
  contextProviders : List ContextProviderFn

/-- `New(schema, contextProviders...)`: the provider list starts with the
implicit `GinContextProvider` followed by the construction-time providers. -/
def New (contextProviders : List ContextProviderFn) : GraphQLApp :=
  GraphQLApp.mk (GinContextProvider :: contextProviders)

/-- The registration step of `app.Handler(contextProviders...)`: the factory
appends its arguments to the shared `app.ContextProviders` slice before
returning the per-request closure, so the mutation is visible to every
closure previously created from the same app. -/
def registerHandler (app : GraphQLApp) (contextProviders : List ContextProviderFn) :
    GraphQLApp :=
  GraphQLApp.mk (app.contextProviders ++ contextProviders)

/-- Repeated factory invocations on one app, in order. -/
def registerAll (app : GraphQLApp) (regs : List (List ContextProviderFn)) :
    GraphQLApp :=
  regs.foldl registerHandler app

/-- The per-request provider loop: fold the providers left-to-right over
`context.Background()` (the empty chain). -/
def runProviders (provs : List ContextProviderFn) (c : Nat) : GoContext :=
  provs.foldl (fun ctx p => p c ctx) []

/-- The fold over an arbitrary initial context, for stating order facts. -/
def runProvidersFrom (provs : List ContextProviderFn) (c : Nat) (ctx : GoContext) :
    GoContext :=
  provs.foldl (fun acc p => p c acc) ctx

/-- The submitted multipart form: plain value fields and file parts.  A file
part is an opaque `*multipart.FileHeader` handle; distinct parts carry
distinct handles (pointer identity). -/
structure Form where
  postForm : List (String × String)
  files : List (String × Nat)

/-- Association-list lookup, first match. -/
def assocLookup {α : Type} (l : List (String × α)) (k : String) : Option α :=
  match l with
  | [] => none
  | (k2, v) :: rest => if k2 = k then some v else assocLookup rest k

/-- `c.GetPostForm(key)`: the plain form value when the key exists. -/
def getPostForm (f : Form) (k : String) : Option String :=
  assocLookup f.postForm k

/-- `c.FormFile(key)`: the file part's handle; `none` models the
`http.ErrMissingFile` error for an absent part. -/
def formFile (f : Form) (k : String) : Option Nat :=
  assocLookup f.files k

/-- Go map insert-or-overwrite for the accumulator maps of the collection
loop (keys of any decidable type). -/
def assocInsert {κ α : Type} [DecidableEq κ] (l : List (κ × α)) (k : κ) (v : α) :
    List (κ × α) :=
  match l with
  | [] => [(k, v)]
  | (k2, v2) :: rest =>
      if k2 = k then (k, v) :: rest else (k2, v2) :: assocInsert rest k v

/-- The collection loop `for key, path := range variableMap`: a plain form
value is stored in the `variables` accumulator KEYED BY THE VALUE
(`variables[value] = path`, as in the source), a file part in the `uploads`
accumulator keyed by its handle, and a key with neither fails with the
`c.FormFile` error (`http: no such file`).  Go iterates the map in
unspecified order; the model iterates in list order. -/
def collectGo (form : Form) :
    List (String × List String) → List (String × List String) →
    List (Nat × List String) →
    Except String (List (String × List String) × List (Nat × List String))
  | [], vars, ups => Except.ok (vars, ups)
  | (key, path) :: rest, vars, ups =>
      match getPostForm form key with
      | some value => collectGo form rest (assocInsert vars value path) ups
      | none =>
          match formFile form key with
          | some h => collectGo form rest vars (assocInsert ups h path)
          | none => Except.error "http: no such file"

/-- The message built by `graphqlErrorReply`: `fmt.Sprintf("%s (%s)", message, err)`. -/
def graphqlErrorMessage (message err : String) : String :=
  message ++ " (" ++ err ++ ")"

/-- The parameters handed to `graphql.Do` (schema and context omitted: the
schema is a fixed shared value and the context is described by the provider
fold above). -/
structure EngineCall where
  query : String
  operationName : String
  variableValues : Value

/-- A JSON body written by `c.JSON`: either the `graphqlErrorReply` envelope
(an `errors` array with one message) or the serialized `graphql.Do` result,
determined by its call. -/
inductive ReplyBody where
  | errorsEnvelope (message : String)
  | resultEnvelope (call : EngineCall)

/-- Observable behaviour of one request through the handler closure:
whether `AbortWithError(500, …)` ran, the `set` invocations attempted (value
and raw path, in order), the `c.JSON` calls (status and body, in order),
the `graphql.Do` invocation if reached, whether the provider fold ran, and
whether a runtime panic escaped. -/
structure Trace where
  abort500 : Bool
  sets : List (Value × String)
  replies : List (Nat × ReplyBody)
  engine : Option EngineCall
  contextChainRan : Bool
  panicked : Bool

/-- Outcome of the two placement loops: the final variables and the `set`
calls made, or an early error reply / panic part-way through. -/
inductive LoopOut where
  | ok (vars : Value) (sets : List (Value × String))
  | errReply (msg : String) (sets : List (Value × String))
  | panicked (sets : List (Value × String))

/-- Inner loop `for _, path := range paths`: place one value at each path,
stopping at the first `set` error (replied as `could not set variable (…)`)
or panic. -/
def runPaths (v : Value) (vars : Value) : List String → LoopOut
  | [] => LoopOut.ok vars []
  | path :: rest =>
      match set v vars path with
      | SetOutcome.ok vars2 =>
          match runPaths v vars2 rest with
          | LoopOut.ok vf s => LoopOut.ok vf ((v, path) :: s)
          | LoopOut.errReply m s => LoopOut.errReply m ((v, path) :: s)
          | LoopOut.panicked s => LoopOut.panicked ((v, path) :: s)
      | SetOutcome.err e =>
          LoopOut.errReply (graphqlErrorMessage "could not set variable" (SetErr.msg e))
            [(v, path)]
      | SetOutcome.panic => LoopOut.panicked [(v, path)]

/-- Outer loop over the accumulated assignments (`for value, paths := range …`). -/
def runAssignments : List (Value × List String) → Value → LoopOut
  | [], vars => LoopOut.ok vars []
  | (v, paths) :: rest, vars =>
      match runPaths v vars paths with
      | LoopOut.ok vars2 s1 =>
          match runAssignments rest vars2 with
          | LoopOut.ok vf s2 => LoopOut.ok vf (s1 ++ s2)
          | LoopOut.errReply m s2 => LoopOut.errReply m (s1 ++ s2)
          | LoopOut.panicked s2 => LoopOut.panicked (s1 ++ s2)
      | LoopOut.errReply m s1 => LoopOut.errReply m s1
      | LoopOut.panicked s1 => LoopOut.panicked s1

/-- The bound `GraphQLRequest` structure after `c.ShouldBind`. -/
structure BoundReq where
  query : String
  operationName : String
  variableValues : Value
  operationsString : String
  mapString : String

/-- The zero value of `GraphQLRequest` (the struct a failed bind leaves
behind): empty strings and a nil `VariableValues` map. -/
def zeroBoundReq : BoundReq :=
  BoundReq.mk "" "" Value.vnull "" ""

/-- The `GraphQLRequestParams` produced by unmarshalling the `operations`
JSON. -/
structure Ops where
  query : String
  operationName : String
  variableValues : Value

/-- Body of the request closure after the bind step, lines 154–252 of the
source: when both upload markers are non-empty, unmarshal `operations`
(reply `invalid operations string (…)` with HTTP 200 on failure), unmarshal
`map` (reply `invalid map string (…)`), run the collection loop (reply
`invalid file upload (…)`), overwrite the request parameters from
`operations`, run the plain-value placement loop then the file placement
loop (reply `could not set variable (…)` on a `set` error, crash on a
panic), and finally — as for a request without upload markers — run the
provider chain, call `graphql.Do`, and write the result with HTTP 200.
JSON unmarshal outcomes are inputs (`opsParse`, `mapParse`), consulted
exactly where the source calls `json.Unmarshal`. -/
def handlerBody (abort500 : Bool) (r : BoundReq) (opsParse : Except String Ops)
    (mapParse : Except String (List (String × List String))) (form : Form) :
    Trace :=
  if 0 < r.mapString.length ∧ 0 < r.operationsString.length then
    match opsParse with
    | Except.error e =>
        Trace.mk abort500 []
          [(200, ReplyBody.errorsEnvelope (graphqlErrorMessage "invalid operations string" e))]
          none false false
    | Except.ok ops =>
        match mapParse with
        | Except.error e =>
            Trace.mk abort500 []
              [(200, ReplyBody.errorsEnvelope (graphqlErrorMessage "invalid map string" e))]
              none false false
        | Except.ok variableMap =>
            match collectGo form variableMap [] [] with
            | Except.error e =>
                Trace.mk abort500 []
                  [(200, ReplyBody.errorsEnvelope (graphqlErrorMessage "invalid file upload" e))]
                  none false false
            | Except.ok (vars, uploads) =>
                match runAssignments (vars.map (fun kv => (Value.vstr kv.1, kv.2)))
                    ops.variableValues with
                | LoopOut.errReply m s1 =>
                    Trace.mk abort500 s1 [(200, ReplyBody.errorsEnvelope m)] none false false
                | LoopOut.panicked s1 =>
                    Trace.mk abort500 s1 [] none false true
                | LoopOut.ok vars1 s1 =>
                    match runAssignments (uploads.map (fun kv => (Value.vfile kv.1, kv.2)))
                        vars1 with
                    | LoopOut.errReply m s2 =>
                        Trace.mk abort500 (s1 ++ s2) [(200, ReplyBody.errorsEnvelope m)]
                          none false false
                    | LoopOut.panicked s2 =>
                        Trace.mk abort500 (s1 ++ s2) [] none false true
                    | LoopOut.ok vars2 s2 =>
                        Trace.mk abort500 (s1 ++ s2)
                          [(200, ReplyBody.resultEnvelope
                            (EngineCall.mk ops.query ops.operationName vars2))]
                          (some (EngineCall.mk ops.query ops.operationName vars2))
                          true false
  else
    Trace.mk abort500 []
      [(200, ReplyBody.resultEnvelope (EngineCall.mk r.query r.operationName r.variableValues))]
      (some (EngineCall.mk r.query r.operationName r.variableValues))
      true false

/-- The whole request closure: `c.ShouldBind` first.  On a bind error the
source calls `c.AbortWithError(http.StatusInternalServerError, err)` but has
no `return`, so execution continues with the zero-valued request struct —
the model threads the abort flag and keeps going, exactly as the code does. -/
def Handler (bind : Except String BoundReq) (opsParse : Except String Ops)
    (mapParse : Except String (List (String × List String))) (form : Form) :
    Trace :=
  match bind with
  | Except.error _ => handlerBody true zeroBoundReq opsParse mapParse form
  | Except.ok r => handlerBody false r opsParse mapParse form

/-- Splitting a character list at dots always yields at least one token. -/
theorem splitDotChars_ne_nil (l : List Char) : splitDotChars l ≠ [] := by
  cases l with
  | nil => simp [splitDotChars]
  | cons c rest =>
      simp only [splitDotChars]
      split
      · simp
      · split <;> simp

/-- The parsed segment list of any path string is non-empty: the empty-path
error branch of `set` is unreachable. -/
theorem parseParts_ne_nil (path : String) : parseParts path ≠ [] := by
  unfold parseParts splitDot
  intro h
  simp only [List.map_eq_nil_iff] at h
  exact splitDotChars_ne_nil path.data h

/-- The parsed segment list is never detected as empty. -/
theorem parseParts_isEmpty_false (path : String) :
    (parseParts path).isEmpty = false := by
  cases hp : parseParts path with
  | nil => exact absurd hp (parseParts_ne_nil path)
  | cons a l => rfl

/-- C5 (corrected): an error return of `set` happens exactly when the first
token is not the literal string `"variables"`; the empty-token-sequence error
is unreachable (splitting always yields a token); and the path consisting of
exactly the root marker `"variables"` returns success without writing
anything, because the navigation loop ranges over an empty slice. -/
theorem set_error_iff_first_not_variables (v m : Value) (path : String) :
    ((∃ e, set v m path = SetOutcome.err e) ↔
      firstIsVariables (parseParts path) = false)
    ∧ set v m path ≠ SetOutcome.err SetErr.emptyPath
    ∧ set v m "variables" = SetOutcome.ok m := by
  have hne := parseParts_isEmpty_false path
  have hval : set v m path =
      (if firstIsVariables (parseParts path) then
        (match navSet v m (parseParts path).tail with
          | some r => SetOutcome.ok r
          | none => SetOutcome.panic)
      else SetOutcome.err SetErr.firstNotVariables) := by
    unfold set
    rw [if_neg (by rw [hne]; exact Bool.false_ne_true)]
  refine ⟨?_, ?_, rfl⟩
  · cases hf : firstIsVariables (parseParts path) with
    | true =>
        rw [hf, if_pos rfl] at hval
        constructor
        · rintro ⟨e, he⟩
          rw [hval] at he
          cases hnav : navSet v m (parseParts path).tail <;>
            rw [hnav] at he <;> exact absurd he (by simp)
        · intro hfalse
          exact absurd hfalse (by simp)
    | false =>
        rw [hf, if_neg (by simp)] at hval
        exact ⟨fun _ => rfl, fun _ => ⟨SetErr.firstNotVariables, hval⟩⟩
  · cases hf : firstIsVariables (parseParts path) with
    | true =>
        rw [hf, if_pos rfl] at hval
        rw [hval]
        cases hnav : navSet v m (parseParts path).tail <;> simp
    | false =>
        rw [hf, if_neg (by simp)] at hval
        rw [hval]
        intro h
        exact absurd (SetOutcome.err.inj h) (by simp)

/-- C5 counterexample: the claim says the path consisting of exactly the
single token `"variables"` fails, never a silent success that writes
nothing; the code returns success and leaves the container untouched. -/
theorem root_only_path_silently_succeeds :
    set (Value.vstr "x") (Value.vobj [("p", Value.vnull)]) "variables" =
      SetOutcome.ok (Value.vobj [("p", Value.vnull)]) := rfl

/-- C1 (amended): when the path is well-formed (first token `"variables"`)
but navigation fails — any intermediate or final segment whose kind does not
match the shape of the container the cursor references, or an out-of-range
index — the place operation panics (unchecked type assertion / slice index),
rather than returning any error value. -/
theorem set_mismatch_panics (v m : Value) (path : String)
    (h : firstIsVariables (parseParts path) = true)
    (h2 : navSet v m (parseParts path).tail = none) :
    set v m path = SetOutcome.panic := by
  unfold set
  rw [if_neg (by rw [parseParts_isEmpty_false path]; exact Bool.false_ne_true),
    if_pos h, h2]

/-- Witness for C1 at a concrete shape mismatch: the field-name segment `b`
meets the scalar `1` sitting under `a`. -/
theorem set_mismatch_panics_witness :
    set (Value.vstr "x") (Value.vobj [("a", Value.vint 1)]) "variables.a.b" =
      SetOutcome.panic :=
  set_mismatch_panics (Value.vstr "x") (Value.vobj [("a", Value.vint 1)])
    "variables.a.b" rfl rfl

/-- C1 counterexample: an index segment meeting a non-ordered container (the
string under `a`) makes `set` panic; no error value (the NavigationError of
the claim) is returned at this shape mismatch. -/
theorem set_mismatch_is_not_an_error :
    set (Value.vstr "y") (Value.vobj [("a", Value.vstr "s")]) "variables.a.0" =
      SetOutcome.panic
    ∧ ∀ e, set (Value.vstr "y") (Value.vobj [("a", Value.vstr "s")])
        "variables.a.0" ≠ SetOutcome.err e :=
  ⟨rfl, fun _ h => SetOutcome.noConfusion h⟩

/-- C2: the token `file2` is not all digits (the spec-side anchored rule
rejects it), yet the code classifies it as an index segment — the unanchored
`MatchString` sees the digit `2` — and the discarded `strconv.Atoi` error
leaves index `0`; placing through `variables.file2` on a keyed container
holding the key `file2` then panics on the slice type assertion instead of
writing the field. -/
theorem digit_bearing_token_is_index :
    parseSeg "file2" = Seg.idx 0
    ∧ specIsIndexToken "file2" = false
    ∧ set (Value.vstr "x") (Value.vobj [("file2", Value.vnull)])
        "variables.file2" = SetOutcome.panic :=
  ⟨rfl, rfl, rfl⟩

/-- C10: `GetGinContext` is total — after `GinContextProvider` injects the
handle it returns exactly that handle; when the reserved key holds a value
of another dynamic type, or is absent from the chain, the comma-ok type
assertion yields the nil handle instead of failing. -/
theorem getGinContext_total (ctx : GoContext) (c : Nat) (p : String) :
    GetGinContext (GinContextProvider c ctx) = some c
    ∧ GetGinContext (withValue ctx GinContextKey (CtxVal.other p)) = none
    ∧ (ctxValue ctx GinContextKey = none → GetGinContext ctx = none) := by
  refine ⟨rfl, rfl, fun h => ?_⟩
  unfold GetGinContext
  rw [h]

/-- Witness for C10 on the empty context. -/
theorem getGinContext_total_witness :
    GetGinContext (GinContextProvider 7 []) = some 7
    ∧ GetGinContext (withValue [] GinContextKey (CtxVal.other "s")) = none
    ∧ GetGinContext [] = none := by
  obtain ⟨h1, h2, h3⟩ := getGinContext_total [] 7 "s"
  exact ⟨h1, h2, h3 rfl⟩

/-- The provider list accumulated over repeated factory invocations is the
concatenation of all registrations after the app-level list. -/
theorem registerAll_contextProviders (app : GraphQLApp)
    (regs : List (List ContextProviderFn)) :
    (registerAll app regs).contextProviders = app.contextProviders ++ regs.flatten := by
  induction regs generalizing app with
  | nil => simp [registerAll]
  | cons r rs ih =>
      show (registerAll (registerHandler app r) rs).contextProviders = _
      rw [ih, registerHandler]
      simp [List.append_assoc]

/-- C6 (amended): for an app built with construction-time providers and a
sequence of factory invocations, the provider list is the implicit
`GinContextProvider` first, the construction-time providers next, then all
registration lists in order — and a request is processed by left-folding
that whole accumulated list over the fresh background context, so the gin
injection runs first.  A provider therefore runs once per occurrence in the
accumulated list: later registrations also run for closures created earlier,
and a provider passed to several factory invocations runs several times. -/
theorem providers_fold (appProvs : List ContextProviderFn)
    (regs : List (List ContextProviderFn)) (c : Nat) :
    (registerAll (New appProvs) regs).contextProviders =
      GinContextProvider :: (appProvs ++ regs.flatten)
    ∧ runProviders ((registerAll (New appProvs) regs).contextProviders) c =
      runProvidersFrom (appProvs ++ regs.flatten) c (GinContextProvider c []) := by
  have h : (registerAll (New appProvs) regs).contextProviders =
      GinContextProvider :: (appProvs ++ regs.flatten) := by
    rw [registerAll_contextProviders]
    rfl
  exact ⟨h, by rw [h]; rfl⟩

/-- A sample provider that records one entry under the key `k` each time it
runs. -/
def pushVal : ContextProviderFn :=
  fun _ ctx => ("k", CtxVal.other "v") :: ctx

/-- C6 counterexample: one app, two factory invocations each passing
`pushVal` once — exactly what the repository test router does when it
registers the same handler for GET and POST.  On a single request the final
context carries the entry twice: the provider did not execute exactly once
per request. -/
theorem provider_runs_twice_after_two_registrations :
    runProviders ((registerAll (New []) [[pushVal], [pushVal]]).contextProviders) 0 =
      [("k", CtxVal.other "v"), ("k", CtxVal.other "v"),
        (GinContextKey, CtxVal.ginCtx 0)] := rfl

/-- C7: the request closure evaluated at a request whose bind fails.  The
source calls `c.AbortWithError(500, err)` but lacks a `return`, so — contrary
to the claim — processing continues with the zero-valued request struct: the
provider chain runs, `graphql.Do` is invoked with empty parameters, and a
success-status result envelope is written (the transport layer discards the
200 status because the 500 header was already committed, but the body is
appended and the engine ran). -/
theorem bind_failure_keeps_processing :
    Handler (Except.error "unexpected EOF") (Except.error "unused")
        (Except.error "unused") (Form.mk [] []) =
      Trace.mk true []
        [(200, ReplyBody.resultEnvelope (EngineCall.mk "" "" Value.vnull))]
        (some (EngineCall.mk "" "" Value.vnull)) true false := rfl

/-- C9: a request missing the `operations` form field or the `map` form field
(or both) bypasses the assembler entirely — no `set` call is attempted and
the engine receives the query, operation name and variables of the basic
request parameters exactly as bound. -/
theorem no_upload_markers_bypass (r : BoundReq) (op : Except String Ops)
    (mp : Except String (List (String × List String))) (form : Form)
    (h : r.mapString.length = 0 ∨ r.operationsString.length = 0) :
    Handler (Except.ok r) op mp form =
      Trace.mk false []
        [(200, ReplyBody.resultEnvelope
          (EngineCall.mk r.query r.operationName r.variableValues))]
        (some (EngineCall.mk r.query r.operationName r.variableValues))
        true false := by
  have hc : ¬ (0 < r.mapString.length ∧ 0 < r.operationsString.length) := by
    rintro ⟨h1, h2⟩
    rcases h with h | h <;> omega
  simp only [Handler, handlerBody]
  rw [if_neg hc]

/-- Witness for C9: a bound request with both marker strings empty. -/
theorem no_upload_markers_bypass_witness :
    Handler (Except.ok (BoundReq.mk "q" "op" (Value.vobj []) "" ""))
        (Except.error "x") (Except.error "x") (Form.mk [] []) =
      Trace.mk false []
        [(200, ReplyBody.resultEnvelope (EngineCall.mk "q" "op" (Value.vobj [])))]
        (some (EngineCall.mk "q" "op" (Value.vobj []))) true false :=
  no_upload_markers_bypass (BoundReq.mk "q" "op" (Value.vobj []) "" "")
    (Except.error "x") (Except.error "x") (Form.mk [] []) (Or.inl rfl)

/-- C8: with both upload markers present, malformed `operations` JSON (and,
with `operations` intact, malformed `map` JSON) stops assembly before any
`set` is attempted and before the engine runs, and replies with HTTP status
200 and the GraphQL error envelope built by `graphqlErrorReply` — carrying
the human-readable message and the underlying unmarshal error — not with a
transport-level error status. -/
theorem malformed_json_graphql_reply (r : BoundReq) (e : String)
    (mp : Except String (List (String × List String))) (form : Form)
    (h1 : 0 < r.mapString.length) (h2 : 0 < r.operationsString.length) :
    (Handler (Except.ok r) (Except.error e) mp form =
      Trace.mk false []
        [(200, ReplyBody.errorsEnvelope
          (graphqlErrorMessage "invalid operations string" e))]
        none false false)
    ∧ ∀ ops, Handler (Except.ok r) (Except.ok ops) (Except.error e) form =
      Trace.mk false []
        [(200, ReplyBody.errorsEnvelope
          (graphqlErrorMessage "invalid map string" e))]
        none false false := by
  constructor
  · simp only [Handler, handlerBody]
    rw [if_pos ⟨h1, h2⟩]
  · intro ops
    simp only [Handler, handlerBody]
    rw [if_pos ⟨h1, h2⟩]

/-- Witness for C8: a request with markers present and an unmarshal failure
for the `operations` string, and one for the `map` string. -/
theorem malformed_json_graphql_reply_witness :
    (Handler (Except.ok (BoundReq.mk "" "" Value.vnull "o" "m"))
        (Except.error "bad json") (Except.error "bad json") (Form.mk [] []) =
      Trace.mk false []
        [(200, ReplyBody.errorsEnvelope
          (graphqlErrorMessage "invalid operations string" "bad json"))]
        none false false)
    ∧ Handler (Except.ok (BoundReq.mk "" "" Value.vnull "o" "m"))
        (Except.ok (Ops.mk "" "" Value.vnull)) (Except.error "bad json")
        (Form.mk [] []) =
      Trace.mk false []
        [(200, ReplyBody.errorsEnvelope
          (graphqlErrorMessage "invalid map string" "bad json"))]
        none false false := by
  obtain ⟨ha, hb⟩ := malformed_json_graphql_reply
    (BoundReq.mk "" "" Value.vnull "o" "m") "bad json" (Except.error "bad json")
    (Form.mk [] []) (by decide) (by decide)
  exact ⟨ha, hb (Ops.mk "" "" Value.vnull)⟩

/-- When the upload map references a field with neither a plain value nor a
file part, the collection loop fails with the `c.FormFile` error, whatever
the accumulators hold. -/
theorem collectGo_error_of_missing (form : Form) (key : String)
    (paths : List String) (vm : List (String × List String)) :
    ∀ (vars : List (String × List String)) (ups : List (Nat × List String)),
      (key, paths) ∈ vm → getPostForm form key = none →
      formFile form key = none →
      collectGo form vm vars ups = Except.error "http: no such file" := by
  induction vm with
  | nil =>
      intro vars ups hmem _ _
      exact absurd hmem (List.not_mem_nil _)
  | cons head rest ih =>
      intro vars ups hmem hpost hfile
      obtain ⟨k2, p2⟩ := head
      cases hg : getPostForm form k2 with
      | some value =>
          have hmem2 : (key, paths) ∈ rest := by
            rcases List.mem_cons.mp hmem with heq | hmem2
            · exfalso
              have hk : k2 = key := (Prod.mk.injEq .. ▸ heq).1.symm
              rw [hk] at hg
              rw [hg] at hpost
              exact Option.noConfusion hpost
            · exact hmem2
          simp only [collectGo, hg]
          exact ih _ _ hmem2 hpost hfile
      | none =>
          cases hf : formFile form k2 with
          | some h =>
              have hmem2 : (key, paths) ∈ rest := by
                rcases List.mem_cons.mp hmem with heq | hmem2
                · exfalso
                  have hk : k2 = key := (Prod.mk.injEq .. ▸ heq).1.symm
                  rw [hk] at hf
                  rw [hf] at hfile
                  exact Option.noConfusion hfile
                · exact hmem2
              simp only [collectGo, hg, hf]
              exact ih _ _ hmem2 hpost hfile
          | none => simp only [collectGo, hg, hf]

/-- C4: with markers present and both JSON payloads well-formed, an upload
map referencing a field name for which the form holds neither a plain value
nor a file part makes the handler reply with the upload error envelope at
HTTP 200; no `set` call is ever attempted, the provider chain does not run,
and the engine is never invoked — in particular it never sees a partially
assembled variables object. -/
theorem missing_field_aborts (r : BoundReq) (ops : Ops)
    (vm : List (String × List String)) (form : Form) (key : String)
    (paths : List String)
    (h1 : 0 < r.mapString.length) (h2 : 0 < r.operationsString.length)
    (hmem : (key, paths) ∈ vm)
    (hpost : getPostForm form key = none) (hfile : formFile form key = none) :
    Handler (Except.ok r) (Except.ok ops) (Except.ok vm) form =
      Trace.mk false []
        [(200, ReplyBody.errorsEnvelope
          (graphqlErrorMessage "invalid file upload" "http: no such file"))]
        none false false := by
  simp only [Handler, handlerBody]
  rw [if_pos ⟨h1, h2⟩]
  rw [collectGo_error_of_missing form key paths vm [] [] hmem hpost hfile]

/-- Witness for C4: a map referencing the field `f` against an empty form. -/
theorem missing_field_aborts_witness :
    Handler (Except.ok (BoundReq.mk "" "" Value.vnull "o" "m"))
        (Except.ok (Ops.mk "" "" (Value.vobj [("x", Value.vnull)])))
        (Except.ok [("f", ["variables.x"])]) (Form.mk [] []) =
      Trace.mk false []
        [(200, ReplyBody.errorsEnvelope
          (graphqlErrorMessage "invalid file upload" "http: no such file"))]
        none false false :=
  missing_field_aborts (BoundReq.mk "" "" Value.vnull "o" "m")
    (Ops.mk "" "" (Value.vobj [("x", Value.vnull)])) [("f", ["variables.x"])]
    (Form.mk [] []) "f" ["variables.x"] (by decide) (by decide)
    (List.mem_singleton.mpr rfl) rfl rfl

/-- C3: full evaluation of an upload request in which the two distinct form
fields `a` and `b` carry the same plain text value `x`, with `a` mapped to
`variables.p` and `b` mapped to `variables.q`.  Because the collection loop
keys its accumulator by the VALUE (`variables[value] = path`), the entry for
`a` is overwritten by the entry for `b`: only one `set` runs, `q` receives
the value and `p` keeps its null placeholder, and the engine is invoked with
that partially populated variables object.  (Go map iteration order decides
which of the two fields survives; the model fixes insertion order, so the
later entry `b` wins.) -/
theorem equal_values_collide :
    Handler
        (Except.ok (BoundReq.mk "" "" Value.vnull "o" "m"))
        (Except.ok (Ops.mk "mutation" ""
          (Value.vobj [("p", Value.vnull), ("q", Value.vnull)])))
        (Except.ok [("a", ["variables.p"]), ("b", ["variables.q"])])
        (Form.mk [("a", "x"), ("b", "x")] []) =
      Trace.mk false
        [(Value.vstr "x", "variables.q")]
        [(200, ReplyBody.resultEnvelope (EngineCall.mk "mutation" ""
          (Value.vobj [("p", Value.vnull), ("q", Value.vstr "x")])))]
        (some (EngineCall.mk "mutation" ""
          (Value.vobj [("p", Value.vnull), ("q", Value.vstr "x")])))
        true false := rfl

end Graphqlgin
